import Mathlib

/-!
Verification development for the ELD trip log-book system.

Shallow embedding of the three core services of the repository:
the HOS compliance engine (trips/services/hos_engine.py), the daily
log slicer (trips/services/log_slicer.py) and the grid index mapper
(trips/services/grid_mapper.py).

Modelling conventions:
* Python `datetime` values are modelled as rational numbers of hours
  since an arbitrary epoch; `timedelta(hours=h)` is addition of `h`.
  A calendar date is the integer `⌊t / 24⌋`; local midnight of day `d`
  is `24 * d`.  Python floats are modelled as exact rationals.
* Python dicts used as records become structures; the insertion-ordered
  dict of daily logs becomes a list of `DailyLog` keyed by `date`
  (keys are unique by construction, mirroring dict semantics).
* Python f-string numeric formatting is modelled abstractly by `fmt0`
  and `fmt2`; the rendered text is never relevant to any property below.
-/

/-- A route segment, as consumed by `HOSEngine.process_trip`
(a dict with `distance_miles`, `duration_hours` and optional
`location` / `remarks` keys). -/
structure Segment where
  distance_miles : ℚ
  duration_hours : ℚ
  location : Option String
  remarks : Option String
deriving DecidableEq, Repr

/-- A timeline event dict emitted by the engine (and re-consumed by the
slicer): `start_time`, `end_time`, `status`, `location`, `remarks`. -/
structure TimelineEvent where
  start_time : ℚ
  end_time : ℚ
  status : String
  location : String
  remarks : String
deriving DecidableEq, Repr

/-- A stop dict emitted by the engine: `type`, `time`, `location`, `remarks`. -/
structure Stop where
  type : String
  time : ℚ
  location : String
  remarks : String
deriving DecidableEq, Repr

/-- The local state threaded through `process_trip`'s segment loop. -/
structure HOSState where
  timeline : List TimelineEvent
  stops : List Stop
  current_time : ℚ
  cumulative_driving_hours : ℚ
  cumulative_on_duty_hours : ℚ
  last_break_time : Option ℚ
  last_fuel_miles : ℚ
  total_distance : ℚ
deriving DecidableEq, Repr

/-- `HOSEngine.MAX_DRIVING_HOURS`. -/
def MAX_DRIVING_HOURS : ℚ := 11

/-- `HOSEngine.MAX_ON_DUTY_HOURS`. -/
def MAX_ON_DUTY_HOURS : ℚ := 14

/-- `HOSEngine.REQUIRED_BREAK_HOURS`. -/
def REQUIRED_BREAK_HOURS : ℚ := 10

/-- `HOSEngine.BREAK_REQUIRED_AFTER_DRIVING`. -/
def BREAK_REQUIRED_AFTER_DRIVING : ℚ := 8

/-- `HOSEngine.BREAK_DURATION_MINUTES`. -/
def BREAK_DURATION_MINUTES : ℚ := 30

/-- `HOSEngine.FUEL_STOP_INTERVAL_MILES`. -/
def FUEL_STOP_INTERVAL_MILES : ℚ := 1000

/-- `HOSEngine.MAX_CYCLE_HOURS`. -/
def MAX_CYCLE_HOURS : ℚ := 70

/-- `HOSEngine.PICKUP_DURATION_HOURS`. -/
def PICKUP_DURATION_HOURS : ℚ := 1

/-- `HOSEngine.DROPOFF_DURATION_HOURS`. -/
def DROPOFF_DURATION_HOURS : ℚ := 1

/-- Abstract model of the Python f-string `:.0f` formatting used in the
fuel-stop remarks.  The rendered text plays no role in any property. -/
def fmt0 (q : ℚ) : String := toString (round q)

/-- Abstract model of the Python f-string `:.2f` formatting used in the
driving-segment remark.  The rendered text plays no role in any property. -/
def fmt2 (q : ℚ) : String := toString ((round (q * 100) : ℚ) / 100)

/-- The fuel-stop check at the top of the segment loop
(hos_engine.py lines 88-115): if the miles accumulated since the last
fuel stop plus the incoming segment's distance reach 1000, insert a
half-hour `ON_DUTY` fuel-stop event and a `FUEL` stop, and move the fuel
mileage mark to the current total distance (taken before the segment
is added). -/
def afterFuel (st : HOSState) (seg : Segment) : HOSState :=
  let miles_since_last_fuel := st.total_distance - st.last_fuel_miles
  if miles_since_last_fuel + seg.distance_miles ≥ FUEL_STOP_INTERVAL_MILES then
    let fuel_stop_time := st.current_time
    let fuel_stop_end := fuel_stop_time + 1/2
    { st with
      timeline := st.timeline ++ [⟨fuel_stop_time, fuel_stop_end, "ON_DUTY", "Fuel Stop",
        "Fuel Stop - Required every 1,000 miles (Property-carrying driver assumption). ~" ++
          fmt0 miles_since_last_fuel ++ " miles since last fuel."⟩],
      stops := st.stops ++ [⟨"FUEL", fuel_stop_time, "Fuel Stop",
        "Fuel stop - Required every 1,000 miles (~" ++ fmt0 miles_since_last_fuel ++ " miles)"⟩],
      cumulative_on_duty_hours := st.cumulative_on_duty_hours + 1/2,
      current_time := fuel_stop_end,
      last_fuel_miles := st.total_distance }
  else st

/-- The `needs_30min_break` flag computed in hos_engine.py lines 120-128. -/
def needs_30min_break (st : HOSState) : Bool :=
  match st.last_break_time with
  | none => true
  | some lb => decide ((st.current_time - lb) ≥ BREAK_REQUIRED_AFTER_DRIVING)

/-- The 30-minute-break check (hos_engine.py lines 117-153): after 8
cumulative driving hours, and when no recent break exists, insert a
30-minute `OFF_DUTY` event and a `BREAK` stop, reset the driving-hours
counter only, and record the break time. -/
def after30 (st : HOSState) : HOSState :=
  if st.cumulative_driving_hours ≥ BREAK_REQUIRED_AFTER_DRIVING then
    if needs_30min_break st then
      let break_start := st.current_time
      let break_end := break_start + BREAK_DURATION_MINUTES / 60
      { st with
        timeline := st.timeline ++ [⟨break_start, break_end, "OFF_DUTY", "Rest Stop",
          "30-minute break required"⟩],
        stops := st.stops ++ [⟨"BREAK", break_start, "Rest Stop", "30-minute break"⟩],
        current_time := break_end,
        last_break_time := some break_start,
        cumulative_driving_hours := 0 }
    else st
  else st

/-- Insertion of a 10-hour `SLEEPER` break with the given reason
(hos_engine.py lines 170-192): both cumulative counters reset to 0. -/
def sleeperBreak (st : HOSState) (break_reason : String) : HOSState :=
  let break_start := st.current_time
  let break_end := break_start + REQUIRED_BREAK_HOURS
  { st with
    timeline := st.timeline ++ [⟨break_start, break_end, "SLEEPER", "Rest Area",
      "10-hour break - " ++ break_reason ++ " (Property-carrying driver, 70hrs/8days cycle)"⟩],
    stops := st.stops ++ [⟨"REST", break_start, "Rest Area", break_reason⟩],
    current_time := break_end,
    last_break_time := some break_start,
    cumulative_driving_hours := 0,
    cumulative_on_duty_hours := 0 }

/-- The 10-hour-break check (hos_engine.py lines 155-192), modelling the
`needs_break` / `break_reason` computation: the 11-hour driving limit is
tested first, then (elif) the 14-hour workday limit. -/
def after10 (st : HOSState) : HOSState :=
  if st.cumulative_driving_hours ≥ MAX_DRIVING_HOURS then
    sleeperBreak st "11-hour driving limit reached"
  else if st.cumulative_on_duty_hours ≥ MAX_ON_DUTY_HOURS then
    sleeperBreak st "14-hour workday limit reached"
  else st

/-- Appending the `DRIVING` event for a segment and updating the
counters (hos_engine.py lines 194-207). -/
def appendDriving (st : HOSState) (seg : Segment) : HOSState :=
  let segment_end := st.current_time + seg.duration_hours
  { st with
    timeline := st.timeline ++ [⟨st.current_time, segment_end, "DRIVING",
      seg.location.getD "Route Segment",
      seg.remarks.getD ("Route segment - " ++ fmt2 seg.distance_miles ++
        " miles (Property-carrying driver)")⟩],
    cumulative_driving_hours := st.cumulative_driving_hours + seg.duration_hours,
    cumulative_on_duty_hours := st.cumulative_on_duty_hours + seg.duration_hours,
    total_distance := st.total_distance + seg.distance_miles,
    current_time := segment_end }

/-- One iteration of the segment loop of `process_trip`
(hos_engine.py lines 81-207): degenerate segments are skipped; otherwise
the fuel check, the 30-minute-break check and the 10-hour-break check run
in this order, and then the `DRIVING` event is appended. -/
def processSegment (st : HOSState) (seg : Segment) : HOSState :=
  if seg.distance_miles ≤ 0 ∨ seg.duration_hours ≤ 0 then st
  else appendDriving (after10 (after30 (afterFuel st seg))) seg

/-- `HOSEngine.process_trip` (hos_engine.py lines 33-220): pickup event,
left fold of `processSegment` over the route segments, dropoff event.
`current_cycle_hours` is accepted but never read, exactly as in the
source. -/
def process_trip (route_segments : List Segment) (start_time : ℚ)
    (current_cycle_hours : ℚ) (pickup_location : String) (dropoff_location : String) :
    List TimelineEvent × List Stop :=
  let pickup_end := start_time + PICKUP_DURATION_HOURS
  let st0 : HOSState :=
    { timeline := [⟨start_time, pickup_end, "ON_DUTY",
        (if pickup_location = "" then "Pickup Location" else pickup_location),
        "Pickup - On Duty Not Driving (1 hour - Property-carrying driver assumption)"⟩],
      stops := [],
      current_time := pickup_end,
      cumulative_driving_hours := 0,
      cumulative_on_duty_hours := PICKUP_DURATION_HOURS,
      last_break_time := none,
      last_fuel_miles := 0,
      total_distance := 0 }
  let st1 := route_segments.foldl processSegment st0
  let dropoff_end := st1.current_time + DROPOFF_DURATION_HOURS
  (st1.timeline ++ [⟨st1.current_time, dropoff_end, "ON_DUTY",
      (if dropoff_location = "" then "Dropoff Location" else dropoff_location),
      "Dropoff - On Duty Not Driving (1 hour - Property-carrying driver assumption)"⟩],
   st1.stops)

/-- `HOSEngine.check_70_hour_cycle` (hos_engine.py lines 222-242). -/
def check_70_hour_cycle (timeline : List TimelineEvent) (current_cycle_hours : ℚ) : Bool :=
  let total_on_duty_hours := timeline.foldl
    (fun acc event =>
      if event.status = "DRIVING" ∨ event.status = "ON_DUTY" then
        acc + (event.end_time - event.start_time)
      else acc)
    current_cycle_hours
  total_on_duty_hours ≤ MAX_CYCLE_HOURS

/-- The Scenario A segment list: `[{distance:600, duration:10}, {distance:100, duration:2}]`. -/
def scenarioA : List Segment :=
  [⟨600, 10, none, none⟩, ⟨100, 2, none, none⟩]

/-- The Scenario B segment list: `[{distance:1200, duration:20}]`. -/
def scenarioB : List Segment :=
  [⟨1200, 20, none, none⟩]


/-- A daily log dict produced by `DailyLogSlicer.slice_timeline`.
The Python dict is keyed by the ISO date string; here the calendar day
is the integer day number, which orders exactly as the ISO strings do. -/
structure DailyLog where
  date : ℤ
  segments : List TimelineEvent
  driving_hours : ℚ
  on_duty_hours : ℚ
deriving DecidableEq, Repr

/-- The fresh bucket created for a date on first visit
(log_slicer.py lines 43-49). -/
def emptyLog (d : ℤ) : DailyLog :=
  { date := d, segments := [], driving_hours := 0, on_duty_hours := 0 }

/-- Membership test for a date key in the insertion-ordered bucket list
(models the dict-key test on line 43 of log_slicer.py). -/
def hasKey (logs : List DailyLog) (d : ℤ) : Bool :=
  logs.any (fun l => l.date == d)

/-- Update the (unique) bucket with key `d`; a Python dict holds one
entry per key, so only the first match is updated. -/
def updateFirst (logs : List DailyLog) (d : ℤ) (f : DailyLog → DailyLog) : List DailyLog :=
  match logs with
  | [] => []
  | l :: rest => if l.date = d then f l :: rest else l :: updateFirst rest d f

/-- Appending the day-clipped portion `[a, b)` of `event` to a bucket and
accumulating the per-day totals (log_slicer.py lines 58-73): a copy of
the event with clipped bounds is appended; `driving_hours` grows only for
`DRIVING`, `on_duty_hours` for `DRIVING` and `ON_DUTY`. -/
def addSlice (l : DailyLog) (event : TimelineEvent) (a b : ℚ) : DailyLog :=
  { l with
    segments := l.segments ++ [{ event with start_time := a, end_time := b }],
    driving_hours := l.driving_hours +
      (if event.status = "DRIVING" then b - a else 0),
    on_duty_hours := l.on_duty_hours +
      (if event.status = "DRIVING" ∨ event.status = "ON_DUTY" then b - a else 0) }

/-- The inner `while current_date <= end_date` loop of
`slice_timeline` (log_slicer.py lines 40-75), starting at day `d` with
`n` iterations left: the bucket for the visited date is created before
the non-empty-intersection check; the slice `[max start (24 d),
min end (24 (d+1)))` is recorded only when non-empty. -/
def sliceDays (event : TimelineEvent) : ℤ → ℕ → List DailyLog → List DailyLog
  | _, 0, logs => logs
  | d, n + 1, logs =>
    let logs1 := if hasKey logs d then logs else logs ++ [emptyLog d]
    let event_start := max event.start_time (24 * d)
    let event_end := min event.end_time (24 * (d + 1))
    let logs2 := if event_start < event_end then
        updateFirst logs1 d (fun l => addSlice l event event_start event_end)
      else logs1
    sliceDays event (d + 1) n logs2

/-- Processing one timeline event: its inner day loop runs from the day
of `start_time` to the day of `end_time` inclusive (zero iterations when
the end day precedes the start day, as for the Python `while`). -/
def processEvent (logs : List DailyLog) (event : TimelineEvent) : List DailyLog :=
  sliceDays event ⌊event.start_time / 24⌋
    (⌊event.end_time / 24⌋ - ⌊event.start_time / 24⌋ + 1).toNat logs

/-- `DailyLogSlicer.slice_timeline` (log_slicer.py lines 12-81): empty
input short-circuits to `[]`; otherwise every event is folded into the
bucket list, which is finally sorted by date (Python sorts the unique
ISO date keys; `List.insertionSort` on the day numbers models that). -/
def slice_timeline (timeline : List TimelineEvent) : List DailyLog :=
  if timeline = [] then []
  else List.insertionSort (fun x y => x.date ≤ y.date) (timeline.foldl processEvent [])

/-- The day-clipped slices `[a, b)` the inner loop of `slice_timeline`
generates for a single event, as bare intervals: day `d` contributes
`[max s (24 d), min e (24 (d+1)))` when that interval is non-empty. -/
def daySlices (s e : ℚ) : ℤ → ℕ → List (ℚ × ℚ)
  | _, 0 => []
  | d, n + 1 =>
    (let a := max s (24 * d)
     let b := min e (24 * (d + 1))
     if a < b then [(a, b)] else []) ++ daySlices s e (d + 1) n

/-- All day-clipped slices of one event, over the same day range the
inner loop of `slice_timeline` visits. -/
def eventSlices (event : TimelineEvent) : List (ℚ × ℚ) :=
  daySlices event.start_time event.end_time ⌊event.start_time / 24⌋
    (⌊event.end_time / 24⌋ - ⌊event.start_time / 24⌋ + 1).toNat

/-- Duration of a bare slice. -/
def sliceDur (p : ℚ × ℚ) : ℚ := p.2 - p.1

/-- Duration of a timeline event in hours. -/
def eventDur (e : TimelineEvent) : ℚ := e.end_time - e.start_time

/-- Total duration of the segments recorded in one daily log bucket. -/
def logDur (l : DailyLog) : ℚ := (l.segments.map eventDur).sum

/-- Total duration recorded across a list of daily log buckets. -/
def totalDur (logs : List DailyLog) : ℚ := (logs.map logDur).sum


/-- A time of day as carried by a Python `datetime`: the `hour` and
`minute` attributes read by `GridMapper.time_to_index`, with their
`datetime`-guaranteed ranges. -/
structure TimeOfDay where
  hour : ℕ
  minute : ℕ
  hour_lt : hour < 24
  minute_lt : minute < 60

/-- `GridMapper.GRID_CELLS_PER_DAY`. -/
def GRID_CELLS_PER_DAY : ℤ := 96

/-- `GridMapper.MINUTES_PER_INCREMENT`. -/
def MINUTES_PER_INCREMENT : ℕ := 15

/-- `GridMapper.STATUS_TO_ROW` (grid_mapper.py lines 20-25). -/
def STATUS_TO_ROW : List (String × ℕ) :=
  [("OFF_DUTY", 0), ("SLEEPER", 1), ("DRIVING", 2), ("ON_DUTY", 3)]

/-- The row lookup `STATUS_TO_ROW.get(status, 0)` used on line 70 of
grid_mapper.py: unrecognized statuses default to row 0. -/
def statusToRow (status : String) : ℕ :=
  ((STATUS_TO_ROW.lookup status).getD 0)

/-- `GridMapper.time_to_index` (grid_mapper.py lines 27-45):
`hour * 4 + minute // 15`, clamped into `[0, GRID_CELLS_PER_DAY - 1]`. -/
def time_to_index (dt : TimeOfDay) : ℤ :=
  let index : ℕ := dt.hour * 4 + dt.minute / MINUTES_PER_INCREMENT
  max 0 (min (GRID_CELLS_PER_DAY - 1) (index : ℤ))

/-- A day-clipped segment as consumed by `map_segments_to_grid`: only
the `start_time`, `end_time` and `status` fields are read, and the grid
mapper looks only at the time of day. -/
structure GridInputSegment where
  start_time : TimeOfDay
  end_time : TimeOfDay
  status : String

/-- A segment augmented with `startIndex`, `endIndex`, `rowIndex`
(grid_mapper.py lines 72-75). -/
structure MappedSegment where
  seg : GridInputSegment
  startIndex : ℤ
  endIndex : ℤ
  rowIndex : ℕ

/-- A daily log as consumed by `map_segments_to_grid`: the `segments`
list it reads. -/
structure GDailyLog where
  segments : List GridInputSegment

/-- A daily log with every segment augmented, as returned by
`map_segments_to_grid`. -/
structure GMappedLog where
  segments : List MappedSegment

/-- `GridMapper.map_segments_to_grid` (grid_mapper.py lines 47-80):
every segment is augmented with the grid index of its start time, the
grid index of its end time, and the row index of its duty status. -/
def map_segments_to_grid (daily_log : GDailyLog) : GMappedLog :=
  { segments := daily_log.segments.map (fun segment =>
      { seg := segment,
        startIndex := time_to_index segment.start_time,
        endIndex := time_to_index segment.end_time,
        rowIndex := statusToRow segment.status }) }

/-- The spec's formula for the grid index, written from the spec's own
words: `clamp(hourOf(t)*4 + floor(minuteOf(t)/15), 0, 95)`. -/
def timeToIndexSpec (dt : TimeOfDay) : ℤ :=
  max 0 (min 95 ((dt.hour * 4 + dt.minute / 15 : ℕ) : ℤ))

/-- Claim C1, behaviour of the code at the claimed input: for Scenario A
(`[{distance:600, duration:10}, {distance:100, duration:2}]`,
`cycleHours=0`), `process_trip` emits NO `SLEEPER` event at all; the
event between the two `DRIVING` legs is a 0.5-hour `OFF_DUTY` 30-minute
break (the 8-hour rule fires at 10 driving hours and resets the counter,
so the 11-hour check never triggers).  This contradicts the claim and the
repository's own test `test_11_hour_driving_limit`. -/
theorem hos_C1_eval :
    ((process_trip scenarioA 0 0 "" "").1.filter
      (fun e => e.status == "SLEEPER")).length = 0 ∧
    (process_trip scenarioA 0 0 "" "").1.map (fun e => e.status) =
      ["ON_DUTY", "DRIVING", "OFF_DUTY", "DRIVING", "ON_DUTY"] ∧
    (process_trip scenarioA 0 0 "" "").1.map (fun e => (e.start_time, e.end_time)) =
      [(0, 1), (1, 11), (11, 23/2), (23/2, 27/2), (27/2, 29/2)] := by
  norm_num [process_trip, processSegment, afterFuel, after30, after10, sleeperBreak,
    appendDriving, needs_30min_break, scenarioA, MAX_DRIVING_HOURS, MAX_ON_DUTY_HOURS,
    REQUIRED_BREAK_HOURS, BREAK_REQUIRED_AFTER_DRIVING, BREAK_DURATION_MINUTES,
    FUEL_STOP_INTERVAL_MILES, PICKUP_DURATION_HOURS, DROPOFF_DURATION_HOURS]
  decide

/-- Claim C2, behaviour of the code at the claimed input: for Scenario B
(`[{distance:1200, duration:20}]`, `cycleHours=0`), exactly one `FUEL`
stop is recorded at time 1 — before any distance has accumulated, hence
before cumulative distance reaches 1000 miles — but the timeline contains
NO `SLEEPER` event: HOS checks run only before a segment, so the single
20-hour segment is emitted as one uninterrupted `DRIVING` event,
contradicting the claim and the engine's documented 11-hour limit. -/
theorem hos_C2_eval :
    ((process_trip scenarioB 0 0 "" "").2.filter (fun s => s.type == "FUEL")).length = 1 ∧
    (process_trip scenarioB 0 0 "" "").2.map (fun s => (s.type, s.time)) = [("FUEL", 1)] ∧
    ((process_trip scenarioB 0 0 "" "").1.filter
      (fun e => e.status == "SLEEPER")).length = 0 ∧
    (process_trip scenarioB 0 0 "" "").1.map (fun e => e.status) =
      ["ON_DUTY", "ON_DUTY", "DRIVING", "ON_DUTY"] := by
  norm_num [process_trip, processSegment, afterFuel, after30, after10, sleeperBreak,
    appendDriving, needs_30min_break, scenarioB, MAX_DRIVING_HOURS, MAX_ON_DUTY_HOURS,
    REQUIRED_BREAK_HOURS, BREAK_REQUIRED_AFTER_DRIVING, BREAK_DURATION_MINUTES,
    FUEL_STOP_INTERVAL_MILES, PICKUP_DURATION_HOURS, DROPOFF_DURATION_HOURS]
  decide

/-- Claim C8: `process_trip` never reads `current_cycle_hours`, so two
calls differing only in that argument return identical
(timeline, stops) pairs. -/
theorem hos_C8_cycle_hours_irrelevant (route_segments : List Segment)
    (start_time c1 c2 : ℚ) (pickup_location dropoff_location : String) :
    process_trip route_segments start_time c1 pickup_location dropoff_location =
    process_trip route_segments start_time c2 pickup_location dropoff_location := rfl

/-- The event used to exhibit the empty midnight bucket of claim C9:
an event ending exactly at midnight of the next day. -/
def midnightEvent : TimelineEvent := ⟨22, 24, "ON_DUTY", "L", "R"⟩

/-- Claim C9: for a timeline whose last-spanning event ends exactly at
midnight (here 22:00 → 24:00, i.e. 00:00 of day 1), `slice_timeline`
returns a bucket for the next date whose segments list is empty and whose
totals are both 0: the bucket is created for every spanned date before
the non-empty-intersection check. -/
theorem slicer_C9_empty_midnight_bucket :
    slice_timeline [midnightEvent] =
      [{ date := 0, segments := [⟨22, 24, "ON_DUTY", "L", "R"⟩],
         driving_hours := 0, on_duty_hours := 2 },
       { date := 1, segments := [], driving_hours := 0, on_duty_hours := 0 }] := by
  norm_num [slice_timeline, processEvent, sliceDays, hasKey, updateFirst, addSlice,
    emptyLog, midnightEvent, List.insertionSort, List.orderedInsert]
  decide

/-- The event used as counterexample to claim C3's bucket-count formula:
a 4-hour event spanning midnight (22:00 → 02:00 of the next day). -/
def spanEvent : TimelineEvent := ⟨22, 26, "DRIVING", "Route", "x"⟩

/-- Claim C3, counterexample to the bucket-count formula as stated: the
4-hour event 22:00 → 02:00 spans midnight and its slices land in 2 day
buckets of `slice_timeline`, but `⌈span/24h⌉ = ⌈4/24⌉ = 1`. -/
theorem slicer_C3_counterexample :
    ((slice_timeline [spanEvent]).filter (fun l => !l.segments.isEmpty)).length = 2 ∧
    (eventSlices spanEvent).length = 2 ∧
    (⌈(spanEvent.end_time - spanEvent.start_time) / 24⌉).toNat = 1 := by
  refine ⟨?_, ?_, ?_⟩
  · norm_num [slice_timeline, processEvent, sliceDays, hasKey, updateFirst, addSlice,
      emptyLog, spanEvent, List.insertionSort, List.orderedInsert]
  · norm_num [eventSlices, daySlices, spanEvent]
  · norm_num [spanEvent]
    have h : ⌈(1/6 : ℚ)⌉ = (1 : ℤ) := by
      rw [Int.ceil_eq_iff]
      norm_num
    rw [h]
    rfl

lemma after10_driving_lt (st : HOSState) :
    (after10 st).cumulative_driving_hours < MAX_DRIVING_HOURS := by
  unfold after10 sleeperBreak
  split_ifs with h1 h2
  · norm_num [MAX_DRIVING_HOURS]
  · norm_num [MAX_DRIVING_HOURS]
  · exact lt_of_not_ge h1

lemma after10_on_duty_lt (st : HOSState) :
    (after10 st).cumulative_on_duty_hours < MAX_ON_DUTY_HOURS := by
  unfold after10 sleeperBreak
  split_ifs with h1 h2
  · norm_num [MAX_ON_DUTY_HOURS]
  · norm_num [MAX_ON_DUTY_HOURS]
  · exact lt_of_not_ge h2

/-- Claim C5: `processSegment` appends its `DRIVING` event (in the valid
branch) to the state obtained after the fuel check, the 30-minute-break
check and the 10-hour-break check — and that state always satisfies
`cumulative_driving_hours < 11` and `cumulative_on_duty_hours < 14`:
reaching a threshold inserts a break (which resets the counters) first. -/
theorem hos_C5_limits_before_driving (st : HOSState) (seg : Segment) :
    processSegment st seg =
      (if seg.distance_miles ≤ 0 ∨ seg.duration_hours ≤ 0 then st
       else appendDriving (after10 (after30 (afterFuel st seg))) seg) ∧
    (after10 (after30 (afterFuel st seg))).cumulative_driving_hours < MAX_DRIVING_HOURS ∧
    (after10 (after30 (afterFuel st seg))).cumulative_on_duty_hours < MAX_ON_DUTY_HOURS :=
  ⟨rfl, after10_driving_lt _, after10_on_duty_lt _⟩

lemma statusToRow_eq_ite (s : String) :
    statusToRow s =
      if s = "OFF_DUTY" then 0 else if s = "SLEEPER" then 1
      else if s = "DRIVING" then 2 else if s = "ON_DUTY" then 3 else 0 := by
  by_cases h1 : s = "OFF_DUTY"
  · subst h1; decide
  by_cases h2 : s = "SLEEPER"
  · subst h2; decide
  by_cases h3 : s = "DRIVING"
  · subst h3; decide
  by_cases h4 : s = "ON_DUTY"
  · subst h4; decide
  simp only [statusToRow, STATUS_TO_ROW, List.lookup,
    beq_eq_false_iff_ne, ne_eq]
  rw [if_neg h1, if_neg h2, if_neg h3, if_neg h4]
  rw [beq_eq_false_iff_ne.mpr h1, beq_eq_false_iff_ne.mpr h2,
    beq_eq_false_iff_ne.mpr h3, beq_eq_false_iff_ne.mpr h4]
  rfl

lemma statusToRow_le_three (s : String) : statusToRow s ≤ 3 := by
  rw [statusToRow_eq_ite]
  split_ifs <;> norm_num

lemma unclamped_le_95 (dt : TimeOfDay) : dt.hour * 4 + dt.minute / 15 ≤ 95 := by
  have h1 := dt.hour_lt
  have h2 := dt.minute_lt
  omega

lemma time_to_index_eq_unclamped (dt : TimeOfDay) :
    time_to_index dt = ((dt.hour * 4 + dt.minute / 15 : ℕ) : ℤ) := by
  have h1 := dt.hour_lt
  have h2 := dt.minute_lt
  simp only [time_to_index, MINUTES_PER_INCREMENT, GRID_CELLS_PER_DAY]
  omega

/-- Claim C7: `time_to_index` equals the spec's clamp formula
`clamp(hour*4 + minute/15, 0, 95)` on every time of day; it takes the
values 0, 24, 34, 95 at 00:00, 06:00, 08:30, 23:45; and the duty-status
row lookup maps OFF_DUTY, SLEEPER, DRIVING, ON_DUTY to rows 0-3 with
every unrecognized status defaulting to row 0. -/
theorem grid_C7_index_and_rows :
    (∀ dt : TimeOfDay, time_to_index dt = timeToIndexSpec dt) ∧
    time_to_index ⟨0, 0, by norm_num, by norm_num⟩ = 0 ∧
    time_to_index ⟨6, 0, by norm_num, by norm_num⟩ = 24 ∧
    time_to_index ⟨8, 30, by norm_num, by norm_num⟩ = 34 ∧
    time_to_index ⟨23, 45, by norm_num, by norm_num⟩ = 95 ∧
    (∀ s : String, statusToRow s =
      if s = "OFF_DUTY" then 0 else if s = "SLEEPER" then 1
      else if s = "DRIVING" then 2 else if s = "ON_DUTY" then 3 else 0) := by
  refine ⟨fun dt => ?_, by decide, by decide, by decide, by decide, statusToRow_eq_ite⟩
  simp only [time_to_index, timeToIndexSpec, MINUTES_PER_INCREMENT, GRID_CELLS_PER_DAY]
  norm_num

/-- Claim C10: the unclamped grid index `hour*4 + minute/15` already lies
in `[0, 95]` for every time of day (the value is a natural number, hence
nonnegative), so the clamp in `time_to_index` never changes it; and every
segment mapped by `map_segments_to_grid` carries a `startIndex` and
`endIndex` in `[0, 95]` and a `rowIndex` in `[0, 3]`. -/
theorem grid_C10_indices_in_range :
    (∀ dt : TimeOfDay,
      ((dt.hour * 4 + dt.minute / 15 : ℕ) : ℤ) ≤ 95 ∧
      time_to_index dt = ((dt.hour * 4 + dt.minute / 15 : ℕ) : ℤ)) ∧
    (∀ (daily_log : GDailyLog), ∀ m ∈ (map_segments_to_grid daily_log).segments,
      0 ≤ m.startIndex ∧ m.startIndex ≤ 95 ∧ 0 ≤ m.endIndex ∧ m.endIndex ≤ 95 ∧
      m.rowIndex ≤ 3) := by
  constructor
  · intro dt
    exact ⟨by exact_mod_cast unclamped_le_95 dt, time_to_index_eq_unclamped dt⟩
  · intro daily_log m hm
    unfold map_segments_to_grid at hm
    rw [List.mem_map] at hm
    obtain ⟨s, _, rfl⟩ := hm
    dsimp only
    refine ⟨?_, ?_, ?_, ?_, statusToRow_le_three _⟩ <;>
      rw [time_to_index_eq_unclamped]
    · exact Int.natCast_nonneg _
    · exact_mod_cast unclamped_le_95 s.start_time
    · exact Int.natCast_nonneg _
    · exact_mod_cast unclamped_le_95 s.end_time

/-- Witness for C10 at a concrete daily log: a single DRIVING segment
08:30 → 10:00. -/
theorem grid_C10_witness :
    (0 : ℤ) ≤ 34 ∧ (34 : ℤ) ≤ 95 ∧ (0 : ℤ) ≤ 40 ∧ (40 : ℤ) ≤ 95 ∧ (2 : ℕ) ≤ 3 := by
  have h := grid_C10_indices_in_range.2
    ⟨[⟨⟨8, 30, by norm_num, by norm_num⟩, ⟨10, 0, by norm_num, by norm_num⟩, "DRIVING"⟩]⟩
    ⟨⟨⟨8, 30, by norm_num, by norm_num⟩, ⟨10, 0, by norm_num, by norm_num⟩, "DRIVING"⟩,
      34, 40, 2⟩
    (by constructor <;> rfl)
  exact h

/-- `chainTo t0 l t1`: the events of `l` tile the interval from `t0` to
`t1` without gaps or overlaps — the first event starts at `t0`, each
event ends strictly after it starts, each event starts where the
previous one ended, and the last event ends at `t1`. -/
def chainTo : ℚ → List TimelineEvent → ℚ → Prop
  | t0, [], t1 => t0 = t1
  | t0, e :: es, t1 =>
    e.start_time = t0 ∧ e.start_time < e.end_time ∧ chainTo e.end_time es t1

lemma chainTo_snoc {t0 t1 : ℚ} {l : List TimelineEvent} (h : chainTo t0 l t1)
    (e : TimelineEvent) (he : e.start_time = t1) (hlt : e.start_time < e.end_time) :
    chainTo t0 (l ++ [e]) e.end_time := by
  induction l generalizing t0 with
  | nil =>
    simp only [chainTo] at h
    exact ⟨he.trans h.symm, hlt, rfl⟩
  | cons a as ih =>
    obtain ⟨h1, h2, h3⟩ := h
    exact ⟨h1, h2, ih h3⟩

lemma chainTo_le_start {l : List TimelineEvent} :
    ∀ {t0 t1 : ℚ}, chainTo t0 l t1 → ∀ e ∈ l, t0 ≤ e.start_time := by
  induction l with
  | nil => intro t0 t1 _ e he; exact absurd he (List.not_mem_nil e)
  | cons a as ih =>
    intro t0 t1 h e he
    obtain ⟨h1, h2, h3⟩ := h
    rcases List.mem_cons.mp he with rfl | hmem
    · exact le_of_eq h1.symm
    · calc t0 = a.start_time := h1.symm
        _ ≤ a.end_time := le_of_lt h2
        _ ≤ e.start_time := ih h3 e hmem

lemma chainTo_pairwise {l : List TimelineEvent} :
    ∀ {t0 t1 : ℚ}, chainTo t0 l t1 →
      l.Pairwise (fun a b => a.start_time < b.start_time) := by
  induction l with
  | nil => intro _ _ _; exact List.Pairwise.nil
  | cons a as ih =>
    intro t0 t1 h
    obtain ⟨h1, h2, h3⟩ := h
    refine List.Pairwise.cons (fun b hb => ?_) (ih h3)
    exact lt_of_lt_of_le h2 (chainTo_le_start h3 b hb)

/-- The loop invariant of `process_trip`: the timeline built so far tiles
the interval from the trip start to the current time. -/
def stInv (t0 : ℚ) (st : HOSState) : Prop :=
  chainTo t0 st.timeline st.current_time

lemma stInv_afterFuel {t0 : ℚ} (st : HOSState) (seg : Segment) (h : stInv t0 st) :
    stInv t0 (afterFuel st seg) := by
  unfold stInv
  simp only [afterFuel]
  split
  · exact chainTo_snoc h _ rfl (by norm_num)
  · exact h

lemma stInv_after30 {t0 : ℚ} (st : HOSState) (h : stInv t0 st) :
    stInv t0 (after30 st) := by
  unfold stInv after30
  split
  · split
    · refine chainTo_snoc h _ rfl ?_
      norm_num [BREAK_DURATION_MINUTES]
    · exact h
  · exact h

lemma stInv_sleeperBreak {t0 : ℚ} (st : HOSState) (reason : String) (h : stInv t0 st) :
    stInv t0 (sleeperBreak st reason) := by
  unfold stInv sleeperBreak
  refine chainTo_snoc h _ rfl ?_
  norm_num [REQUIRED_BREAK_HOURS]

lemma stInv_after10 {t0 : ℚ} (st : HOSState) (h : stInv t0 st) :
    stInv t0 (after10 st) := by
  unfold after10
  split
  · exact stInv_sleeperBreak st _ h
  · split
    · exact stInv_sleeperBreak st _ h
    · exact h

lemma stInv_appendDriving {t0 : ℚ} (st : HOSState) (seg : Segment)
    (hdur : 0 < seg.duration_hours) (h : stInv t0 st) :
    stInv t0 (appendDriving st seg) := by
  unfold stInv appendDriving
  refine chainTo_snoc h _ rfl ?_
  simp only
  linarith

lemma stInv_processSegment {t0 : ℚ} (st : HOSState) (seg : Segment) (h : stInv t0 st) :
    stInv t0 (processSegment st seg) := by
  unfold processSegment
  split
  · exact h
  · rename_i hvalid
    push_neg at hvalid
    exact stInv_appendDriving _ _ hvalid.2
      (stInv_after10 _ (stInv_after30 _ (stInv_afterFuel _ _ h)))

lemma stInv_foldl {t0 : ℚ} (segs : List Segment) :
    ∀ st : HOSState, stInv t0 st → stInv t0 (segs.foldl processSegment st) := by
  induction segs with
  | nil => intro st h; exact h
  | cons seg rest ih =>
    intro st h
    exact ih _ (stInv_processSegment st seg h)

/-- Claim C4: for every input, the timeline returned by `process_trip`
tiles an interval starting at the supplied trip start time (first event
starts there, each event's start equals the previous event's end, every
event ends strictly after it starts) and is strictly ordered by start
time. -/
theorem hos_C4_contiguous (route_segments : List Segment) (start_time : ℚ)
    (current_cycle_hours : ℚ) (pickup_location dropoff_location : String) :
    (∃ tEnd, chainTo start_time
      (process_trip route_segments start_time current_cycle_hours
        pickup_location dropoff_location).1 tEnd) ∧
    (process_trip route_segments start_time current_cycle_hours
        pickup_location dropoff_location).1.Pairwise
      (fun a b => a.start_time < b.start_time) := by
  have h0 : stInv start_time
      { timeline := [⟨start_time, start_time + PICKUP_DURATION_HOURS, "ON_DUTY",
          (if pickup_location = "" then "Pickup Location" else pickup_location),
          "Pickup - On Duty Not Driving (1 hour - Property-carrying driver assumption)"⟩],
        stops := [],
        current_time := start_time + PICKUP_DURATION_HOURS,
        cumulative_driving_hours := 0,
        cumulative_on_duty_hours := PICKUP_DURATION_HOURS,
        last_break_time := none,
        last_fuel_miles := 0,
        total_distance := 0 } := by
    refine ⟨rfl, ?_, rfl⟩
    norm_num [PICKUP_DURATION_HOURS]
  have h1 := stInv_foldl route_segments _ h0
  have hlt : ∀ x : ℚ, x < x + DROPOFF_DURATION_HOURS := fun x => by
    norm_num [DROPOFF_DURATION_HOURS]
  constructor
  · simp only [process_trip]
    exact ⟨_, chainTo_snoc h1 _ rfl (hlt _)⟩
  · simp only [process_trip]
    exact chainTo_pairwise (chainTo_snoc h1 _ rfl (hlt _))

/-- Total duration of the `DRIVING` events of a timeline. -/
def drivingSum (tl : List TimelineEvent) : ℚ :=
  ((tl.filter (fun e => e.status == "DRIVING")).map
    (fun e => e.end_time - e.start_time)).sum

/-- The validity test the segment loop applies (hos_engine.py line 85):
segments with `distance_miles ≤ 0` or `duration_hours ≤ 0` are skipped. -/
def validSegment (seg : Segment) : Bool :=
  !decide (seg.distance_miles ≤ 0 ∨ seg.duration_hours ≤ 0)

lemma drivingSum_append (l1 l2 : List TimelineEvent) :
    drivingSum (l1 ++ l2) = drivingSum l1 + drivingSum l2 := by
  simp [drivingSum, List.filter_append]

lemma drivingSum_snoc_not_driving (l : List TimelineEvent) (e : TimelineEvent)
    (h : (e.status == "DRIVING") = false) :
    drivingSum (l ++ [e]) = drivingSum l := by
  rw [drivingSum_append]
  simp [drivingSum, List.filter, h]

lemma drivingSum_afterFuel (st : HOSState) (seg : Segment) :
    drivingSum (afterFuel st seg).timeline = drivingSum st.timeline := by
  simp only [afterFuel]
  split
  · apply drivingSum_snoc_not_driving
    rfl
  · rfl

lemma drivingSum_after30 (st : HOSState) :
    drivingSum (after30 st).timeline = drivingSum st.timeline := by
  simp only [after30]
  split
  · split
    · apply drivingSum_snoc_not_driving
      rfl
    · rfl
  · rfl

lemma drivingSum_after10 (st : HOSState) :
    drivingSum (after10 st).timeline = drivingSum st.timeline := by
  simp only [after10, sleeperBreak]
  split
  · apply drivingSum_snoc_not_driving
    rfl
  · split
    · apply drivingSum_snoc_not_driving
      rfl
    · rfl

lemma drivingSum_appendDriving (st : HOSState) (seg : Segment) :
    drivingSum (appendDriving st seg).timeline =
      drivingSum st.timeline + seg.duration_hours := by
  simp only [appendDriving]
  rw [drivingSum_append]
  simp [drivingSum, List.filter]

lemma drivingSum_processSegment (st : HOSState) (seg : Segment) :
    drivingSum (processSegment st seg).timeline =
      drivingSum st.timeline + (if validSegment seg then seg.duration_hours else 0) := by
  unfold processSegment
  split
  · rename_i hinvalid
    have hv : validSegment seg = false := by
      simp [validSegment, hinvalid]
    rw [hv]
    simp
  · rename_i hvalid
    have hv : validSegment seg = true := by
      simp only [validSegment, Bool.not_eq_eq_eq_not, Bool.not_true,
        decide_eq_false_iff_not]
      exact hvalid
    rw [hv]
    simp only [if_true]
    rw [drivingSum_appendDriving, drivingSum_after10, drivingSum_after30,
      drivingSum_afterFuel]

lemma drivingSum_foldl (segs : List Segment) :
    ∀ st : HOSState, drivingSum ((segs.foldl processSegment st).timeline) =
      drivingSum st.timeline +
        ((segs.filter validSegment).map (fun s => s.duration_hours)).sum := by
  induction segs with
  | nil => intro st; simp
  | cons seg rest ih =>
    intro st
    rw [List.foldl_cons, ih, drivingSum_processSegment, List.filter_cons]
    by_cases hv : validSegment seg
    · rw [if_pos hv]
      simp [hv]
      ring
    · rw [if_neg hv]
      simp only [Bool.not_eq_true] at hv
      rw [hv]
      simp

/-- Claim C6: the total duration of the `DRIVING` events in the timeline
returned by `process_trip` equals the sum of `duration_hours` over the
valid input segments (segments with distance ≤ 0 or duration ≤ 0 are
excluded from both sides). -/
theorem hos_C6_driving_conservation (route_segments : List Segment) (start_time : ℚ)
    (current_cycle_hours : ℚ) (pickup_location dropoff_location : String) :
    drivingSum (process_trip route_segments start_time current_cycle_hours
        pickup_location dropoff_location).1 =
      ((route_segments.filter validSegment).map (fun s => s.duration_hours)).sum := by
  simp only [process_trip]
  rw [drivingSum_append, drivingSum_foldl]
  simp [drivingSum, List.filter]

lemma daySlices_succ (s e : ℚ) (d : ℤ) (n : ℕ) :
    daySlices s e d (n + 1) =
      (if max s (24 * d) < min e (24 * ((d : ℤ) + 1)) then
        [(max s (24 * d), min e (24 * ((d : ℤ) + 1)))] else [])
        ++ daySlices s e (d + 1) n := rfl

lemma daySlices_sum_zero (s e : ℚ) :
    ∀ (n : ℕ) (d : ℤ), e ≤ 24 * d →
      ((daySlices s e d n).map sliceDur).sum = 0 := by
  intro n
  induction n with
  | zero => intro d _; rfl
  | succ n ih =>
    intro d h
    have hb : min e (24 * ((d : ℚ) + 1)) ≤ max s (24 * d) := by
      have h1 : min e (24 * ((d : ℚ) + 1)) ≤ e := min_le_left _ _
      have h2 : (24 : ℚ) * d ≤ max s (24 * d) := le_max_right _ _
      linarith
    rw [daySlices_succ, if_neg (not_lt.mpr hb), List.nil_append]
    apply ih
    push_cast
    push_cast at h
    linarith

lemma daySlices_sum_mid (s e : ℚ) :
    ∀ (n : ℕ) (d : ℤ), s ≤ 24 * d → 24 * d ≤ e → e ≤ 24 * ((d : ℚ) + (n : ℚ)) →
      ((daySlices s e d n).map sliceDur).sum = e - 24 * d := by
  intro n
  induction n with
  | zero =>
    intro d _ h2 h3
    push_cast at h3
    have : e = 24 * (d : ℚ) := le_antisymm (by linarith) h2
    simp [daySlices, this]
  | succ n ih =>
    intro d h1 h2 h3
    have hmax : max s (24 * (d : ℚ)) = 24 * (d : ℚ) := max_eq_right h1
    by_cases he : e ≤ 24 * ((d : ℚ) + 1)
    · have hmin : min e (24 * ((d : ℚ) + 1)) = e := min_eq_left he
      rw [daySlices_succ]
      by_cases hlt : max s (24 * (d : ℚ)) < min e (24 * ((d : ℚ) + 1))
      · rw [if_pos hlt, List.singleton_append, List.map_cons, List.sum_cons,
          daySlices_sum_zero s e n (d + 1) (by push_cast; linarith)]
        rw [hmax, hmin] at hlt ⊢
        simp [sliceDur]
      · rw [if_neg hlt, List.nil_append,
          daySlices_sum_zero s e n (d + 1) (by push_cast; linarith)]
        rw [hmax, hmin] at hlt
        have : e = 24 * (d : ℚ) := le_antisymm (not_lt.mp hlt) h2
        linarith
    · push_neg at he
      have hmin : min e (24 * ((d : ℚ) + 1)) = 24 * ((d : ℚ) + 1) :=
        min_eq_right (le_of_lt he)
      have hlt : max s (24 * (d : ℚ)) < min e (24 * ((d : ℚ) + 1)) := by
        rw [hmax, hmin]
        linarith
      rw [daySlices_succ, if_pos hlt, List.singleton_append, List.map_cons, List.sum_cons]
      have ha1 : s ≤ 24 * ((d + 1 : ℤ) : ℚ) := by push_cast; linarith
      have ha2 : 24 * ((d + 1 : ℤ) : ℚ) ≤ e := by push_cast; linarith
      have ha3 : e ≤ 24 * (((d + 1 : ℤ) : ℚ) + (n : ℚ)) := by
        push_cast
        push_cast at h3
        linarith
      have hrec := ih (d + 1) ha1 ha2 ha3
      rw [hrec, hmax, hmin]
      simp only [sliceDur]
      push_cast
      ring

lemma floor_day_le (t : ℚ) : 24 * ((⌊t / 24⌋ : ℤ) : ℚ) ≤ t := by
  have h := Int.floor_le (t / 24)
  calc 24 * ((⌊t / 24⌋ : ℤ) : ℚ) ≤ 24 * (t / 24) := by linarith
    _ = t := by ring

lemma lt_floor_day_succ (t : ℚ) : t < 24 * (((⌊t / 24⌋ : ℤ) : ℚ) + 1) := by
  have h := Int.lt_floor_add_one (t / 24)
  calc t = 24 * (t / 24) := by ring
    _ < 24 * (((⌊t / 24⌋ : ℤ) : ℚ) + 1) := by linarith

lemma eventSlices_sum (ev : TimelineEvent) (h : ev.start_time ≤ ev.end_time) :
    ((eventSlices ev).map sliceDur).sum = ev.end_time - ev.start_time := by
  have hs := floor_day_le ev.start_time
  have hs1 := lt_floor_day_succ ev.start_time
  have he1 := lt_floor_day_succ ev.end_time
  have hmono : ⌊ev.start_time / 24⌋ ≤ ⌊ev.end_time / 24⌋ :=
    Int.floor_le_floor (by linarith)
  have hn : (⌊ev.end_time / 24⌋ - ⌊ev.start_time / 24⌋ + 1).toNat =
      (⌊ev.end_time / 24⌋ - ⌊ev.start_time / 24⌋).toNat + 1 := by omega
  rw [eventSlices, hn, daySlices_succ]
  have hmax : max ev.start_time (24 * ((⌊ev.start_time / 24⌋ : ℤ) : ℚ)) = ev.start_time :=
    max_eq_left hs
  by_cases hcase : ev.end_time ≤ 24 * (((⌊ev.start_time / 24⌋ : ℤ) : ℚ) + 1)
  · have hmin : min ev.end_time (24 * (((⌊ev.start_time / 24⌋ : ℤ) : ℚ) + 1)) =
        ev.end_time := min_eq_left hcase
    by_cases hlt : max ev.start_time (24 * ((⌊ev.start_time / 24⌋ : ℤ) : ℚ)) <
        min ev.end_time (24 * (((⌊ev.start_time / 24⌋ : ℤ) : ℚ) + 1))
    · rw [if_pos hlt, List.singleton_append, List.map_cons, List.sum_cons,
        daySlices_sum_zero _ _ _ _ (by push_cast; linarith)]
      rw [hmax, hmin]
      simp [sliceDur]
    · rw [if_neg hlt, List.nil_append,
        daySlices_sum_zero _ _ _ _ (by push_cast; linarith)]
      rw [hmax, hmin] at hlt
      have : ev.start_time = ev.end_time := le_antisymm h (not_lt.mp hlt)
      linarith
  · push_neg at hcase
    have hmin : min ev.end_time (24 * (((⌊ev.start_time / 24⌋ : ℤ) : ℚ) + 1)) =
        24 * (((⌊ev.start_time / 24⌋ : ℤ) : ℚ) + 1) := min_eq_right (le_of_lt hcase)
    have hlt : max ev.start_time (24 * ((⌊ev.start_time / 24⌋ : ℤ) : ℚ)) <
        min ev.end_time (24 * (((⌊ev.start_time / 24⌋ : ℤ) : ℚ) + 1)) := by
      rw [hmax, hmin]
      linarith
    rw [if_pos hlt, List.singleton_append, List.map_cons, List.sum_cons]
    have hm : ((⌊ev.end_time / 24⌋ - ⌊ev.start_time / 24⌋).toNat : ℤ) =
        ⌊ev.end_time / 24⌋ - ⌊ev.start_time / 24⌋ := by omega
    have hb1 : ev.start_time ≤ 24 * ((⌊ev.start_time / 24⌋ + 1 : ℤ) : ℚ) := by
      push_cast
      linarith
    have hb2 : 24 * ((⌊ev.start_time / 24⌋ + 1 : ℤ) : ℚ) ≤ ev.end_time := by
      push_cast
      linarith
    have hb3 : ev.end_time ≤ 24 * (((⌊ev.start_time / 24⌋ + 1 : ℤ) : ℚ) +
        (((⌊ev.end_time / 24⌋ - ⌊ev.start_time / 24⌋).toNat : ℕ) : ℚ)) := by
      have hq : (((⌊ev.end_time / 24⌋ - ⌊ev.start_time / 24⌋).toNat : ℕ) : ℚ) =
          ((⌊ev.end_time / 24⌋ : ℤ) : ℚ) - ((⌊ev.start_time / 24⌋ : ℤ) : ℚ) := by
        exact_mod_cast congrArg (fun z : ℤ => (z : ℚ)) hm
      rw [hq]
      push_cast
      linarith
    have hrec := daySlices_sum_mid ev.start_time ev.end_time
      (⌊ev.end_time / 24⌋ - ⌊ev.start_time / 24⌋).toNat
      (⌊ev.start_time / 24⌋ + 1) hb1 hb2 hb3
    rw [hrec, hmax, hmin]
    simp only [sliceDur]
    push_cast
    ring

lemma daySlices_len_zero (s e : ℚ) :
    ∀ (n : ℕ) (d : ℤ), e ≤ 24 * d → (daySlices s e d n).length = 0 := by
  intro n
  induction n with
  | zero => intro d _; rfl
  | succ n ih =>
    intro d h
    have hb : min e (24 * ((d : ℚ) + 1)) ≤ max s (24 * d) := by
      have h1 : min e (24 * ((d : ℚ) + 1)) ≤ e := min_le_left _ _
      have h2 : (24 : ℚ) * d ≤ max s (24 * d) := le_max_right _ _
      linarith
    rw [daySlices_succ, if_neg (not_lt.mpr hb), List.nil_append]
    apply ih
    push_cast
    push_cast at h
    linarith

lemma daySlices_len_mid (s e : ℚ) :
    ∀ (n : ℕ) (d : ℤ), s ≤ 24 * d → 24 * d < e → e ≤ 24 * ((d : ℚ) + (n : ℚ)) →
      (daySlices s e d n).length = (⌈e / 24⌉ - d).toNat := by
  intro n
  induction n with
  | zero =>
    intro d _ h2 h3
    exfalso
    push_cast at h3
    linarith
  | succ n ih =>
    intro d h1 h2 h3
    have hmax : max s (24 * (d : ℚ)) = 24 * (d : ℚ) := max_eq_right h1
    have hlt : max s (24 * (d : ℚ)) < min e (24 * ((d : ℚ) + 1)) := by
      rw [hmax]
      apply lt_min h2
      linarith
    rw [daySlices_succ, if_pos hlt, List.singleton_append, List.length_cons]
    by_cases he : e ≤ 24 * ((d : ℚ) + 1)
    · rw [daySlices_len_zero s e n (d + 1) (by push_cast; linarith)]
      have hceil : ⌈e / 24⌉ = d + 1 := by
        rw [Int.ceil_eq_iff]
        constructor
        · push_cast
          rw [lt_div_iff (by norm_num : (0 : ℚ) < 24)]
          linarith
        · push_cast
          rw [div_le_iff (by norm_num : (0 : ℚ) < 24)]
          linarith
      rw [hceil]
      omega
    · push_neg at he
      have ha1 : s ≤ 24 * ((d + 1 : ℤ) : ℚ) := by push_cast; linarith
      have ha2 : 24 * ((d + 1 : ℤ) : ℚ) < e := by push_cast; linarith
      have ha3 : e ≤ 24 * (((d + 1 : ℤ) : ℚ) + (n : ℚ)) := by
        push_cast
        push_cast at h3
        linarith
      rw [ih (d + 1) ha1 ha2 ha3]
      have hge : d + 1 < ⌈e / 24⌉ := by
        rw [Int.lt_ceil]
        push_cast
        rw [lt_div_iff (by norm_num : (0 : ℚ) < 24)]
        linarith
      omega

lemma eventSlices_length (ev : TimelineEvent) (h : ev.start_time < ev.end_time) :
    (eventSlices ev).length =
      (⌈ev.end_time / 24⌉ - ⌊ev.start_time / 24⌋).toNat := by
  have hs := floor_day_le ev.start_time
  have hs1 := lt_floor_day_succ ev.start_time
  have he1 := lt_floor_day_succ ev.end_time
  have hmono : ⌊ev.start_time / 24⌋ ≤ ⌊ev.end_time / 24⌋ :=
    Int.floor_le_floor (by linarith)
  have hn : (⌊ev.end_time / 24⌋ - ⌊ev.start_time / 24⌋ + 1).toNat =
      (⌊ev.end_time / 24⌋ - ⌊ev.start_time / 24⌋).toNat + 1 := by omega
  rw [eventSlices, hn, daySlices_succ]
  have hmax : max ev.start_time (24 * ((⌊ev.start_time / 24⌋ : ℤ) : ℚ)) = ev.start_time :=
    max_eq_left hs
  have hlt : max ev.start_time (24 * ((⌊ev.start_time / 24⌋ : ℤ) : ℚ)) <
      min ev.end_time (24 * (((⌊ev.start_time / 24⌋ : ℤ) : ℚ) + 1)) := by
    rw [hmax]
    exact lt_min h hs1
  rw [if_pos hlt, List.singleton_append, List.length_cons]
  by_cases hcase : ev.end_time ≤ 24 * (((⌊ev.start_time / 24⌋ : ℤ) : ℚ) + 1)
  · rw [daySlices_len_zero _ _ _ _ (by push_cast; linarith)]
    have hceil : ⌈ev.end_time / 24⌉ = ⌊ev.start_time / 24⌋ + 1 := by
      rw [Int.ceil_eq_iff]
      constructor
      · push_cast
        rw [lt_div_iff (by norm_num : (0 : ℚ) < 24)]
        linarith
      · push_cast
        rw [div_le_iff (by norm_num : (0 : ℚ) < 24)]
        linarith
    rw [hceil]
    omega
  · push_neg at hcase
    have hb1 : ev.start_time ≤ 24 * ((⌊ev.start_time / 24⌋ + 1 : ℤ) : ℚ) := by
      push_cast
      linarith
    have hb2 : 24 * ((⌊ev.start_time / 24⌋ + 1 : ℤ) : ℚ) < ev.end_time := by
      push_cast
      linarith
    have hm : ((⌊ev.end_time / 24⌋ - ⌊ev.start_time / 24⌋).toNat : ℤ) =
        ⌊ev.end_time / 24⌋ - ⌊ev.start_time / 24⌋ := by omega
    have hb3 : ev.end_time ≤ 24 * (((⌊ev.start_time / 24⌋ + 1 : ℤ) : ℚ) +
        (((⌊ev.end_time / 24⌋ - ⌊ev.start_time / 24⌋).toNat : ℕ) : ℚ)) := by
      have hq : (((⌊ev.end_time / 24⌋ - ⌊ev.start_time / 24⌋).toNat : ℕ) : ℚ) =
          ((⌊ev.end_time / 24⌋ : ℤ) : ℚ) - ((⌊ev.start_time / 24⌋ : ℤ) : ℚ) := by
        exact_mod_cast congrArg (fun z : ℤ => (z : ℚ)) hm
      rw [hq]
      push_cast
      linarith
    rw [daySlices_len_mid ev.start_time ev.end_time
      (⌊ev.end_time / 24⌋ - ⌊ev.start_time / 24⌋).toNat
      (⌊ev.start_time / 24⌋ + 1) hb1 hb2 hb3]
    have hge : ⌊ev.start_time / 24⌋ + 1 < ⌈ev.end_time / 24⌉ := by
      rw [Int.lt_ceil]
      push_cast
      rw [lt_div_iff (by norm_num : (0 : ℚ) < 24)]
      linarith
    omega

lemma totalDur_cons (l : DailyLog) (logs : List DailyLog) :
    totalDur (l :: logs) = logDur l + totalDur logs := by
  simp [totalDur]

lemma logDur_addSlice (l : DailyLog) (ev : TimelineEvent) (a b : ℚ) :
    logDur (addSlice l ev a b) = logDur l + (b - a) := by
  simp [logDur, addSlice, eventDur]

lemma totalDur_updateFirst (logs : List DailyLog) (d : ℤ) (ev : TimelineEvent) (a b : ℚ)
    (h : hasKey logs d = true) :
    totalDur (updateFirst logs d (fun l => addSlice l ev a b)) = totalDur logs + (b - a) := by
  induction logs with
  | nil => simp [hasKey] at h
  | cons l rest ih =>
    by_cases hd : l.date = d
    · simp only [updateFirst, if_pos hd]
      rw [totalDur_cons, totalDur_cons, logDur_addSlice]
      ring
    · simp only [updateFirst, if_neg hd]
      have h1 : hasKey rest d = true := by
        unfold hasKey at h ⊢
        rw [List.any_cons] at h
        rcases Bool.or_eq_true_iff.mp h with h2 | h2
        · exact absurd (beq_iff_eq.mp h2) hd
        · exact h2
      rw [totalDur_cons, totalDur_cons, ih h1]
      ring

lemma hasKey_after_create (logs : List DailyLog) (d : ℤ) :
    hasKey (if hasKey logs d then logs else logs ++ [emptyLog d]) d = true := by
  by_cases h : hasKey logs d
  · rw [if_pos h]
    exact h
  · rw [if_neg h]
    simp [hasKey, emptyLog, List.any_append]

lemma totalDur_after_create (logs : List DailyLog) (d : ℤ) :
    totalDur (if hasKey logs d then logs else logs ++ [emptyLog d]) = totalDur logs := by
  by_cases h : hasKey logs d
  · rw [if_pos h]
  · rw [if_neg h]
    simp [totalDur, logDur, emptyLog]

lemma totalDur_sliceDays (ev : TimelineEvent) :
    ∀ (n : ℕ) (d : ℤ) (logs : List DailyLog),
      totalDur (sliceDays ev d n logs) =
        totalDur logs + ((daySlices ev.start_time ev.end_time d n).map sliceDur).sum := by
  intro n
  induction n with
  | zero => intro d logs; simp [sliceDays, daySlices]
  | succ n ih =>
    intro d logs
    by_cases hab : max ev.start_time (24 * (d : ℚ)) <
        min ev.end_time (24 * ((d : ℚ) + 1))
    · simp only [sliceDays, daySlices_succ, if_pos hab]
      rw [ih, totalDur_updateFirst _ _ _ _ _ (hasKey_after_create logs d),
        totalDur_after_create, List.singleton_append, List.map_cons, List.sum_cons]
      simp only [sliceDur]
      ring
    · simp only [sliceDays, daySlices_succ, if_neg hab]
      rw [ih, totalDur_after_create, List.nil_append]

lemma totalDur_processEvent (logs : List DailyLog) (ev : TimelineEvent)
    (h : ev.start_time ≤ ev.end_time) :
    totalDur (processEvent logs ev) = totalDur logs + (ev.end_time - ev.start_time) := by
  unfold processEvent
  rw [totalDur_sliceDays]
  have h2 := eventSlices_sum ev h
  unfold eventSlices at h2
  rw [h2]

lemma totalDur_foldl (tl : List TimelineEvent) :
    ∀ logs : List DailyLog, (∀ e ∈ tl, e.start_time ≤ e.end_time) →
      totalDur (tl.foldl processEvent logs) = totalDur logs + (tl.map eventDur).sum := by
  induction tl with
  | nil => intro logs _; simp
  | cons ev rest ih =>
    intro logs hall
    rw [List.foldl_cons, ih _ (fun e he => hall e (List.mem_cons_of_mem _ he)),
      totalDur_processEvent logs ev (hall ev (List.mem_cons_self _ _)),
      List.map_cons, List.sum_cons]
    simp only [eventDur]
    ring

/-- Claim C3, amended: (i) for every event with `start ≤ end`, the sum of
its day-clipped slice durations equals its original duration exactly;
(ii) an event with `start < end` appears in exactly
`⌈end/24⌉ − ⌊start/24⌋` consecutive day buckets — one per calendar day
its half-open span intersects — NOT `⌈(end−start)/24⌉` as claimed;
(iii) consequently the total duration recorded across all DailyLog
buckets returned by `slice_timeline` equals the total duration of the
input events. -/
theorem slicer_C3_conservation :
    (∀ ev : TimelineEvent, ev.start_time ≤ ev.end_time →
      ((eventSlices ev).map sliceDur).sum = ev.end_time - ev.start_time) ∧
    (∀ ev : TimelineEvent, ev.start_time < ev.end_time →
      (eventSlices ev).length =
        (⌈ev.end_time / 24⌉ - ⌊ev.start_time / 24⌋).toNat) ∧
    (∀ tl : List TimelineEvent, (∀ e ∈ tl, e.start_time ≤ e.end_time) →
      totalDur (slice_timeline tl) = (tl.map eventDur).sum) := by
  refine ⟨eventSlices_sum, eventSlices_length, ?_⟩
  intro tl hall
  unfold slice_timeline
  split
  · rename_i h
    subst h
    simp [totalDur]
  · have hperm := List.perm_insertionSort
      (fun x y : DailyLog => x.date ≤ y.date) (tl.foldl processEvent [])
    have hsum := (hperm.map logDur).sum_eq
    have h2 := totalDur_foldl tl [] hall
    unfold totalDur at h2 ⊢
    rw [hsum, h2]
    simp

/-- Witness for the amended claim C3, applied to the concrete 4-hour
midnight-spanning event. -/
theorem slicer_C3_witness :
    spanEvent.start_time ≤ spanEvent.end_time ∧
    ((eventSlices spanEvent).map sliceDur).sum =
      spanEvent.end_time - spanEvent.start_time :=
  ⟨by norm_num [spanEvent], slicer_C3_conservation.1 spanEvent (by norm_num [spanEvent])⟩
